import Mathlib

/-!
Verification of the tracking Monitor orchestrator
(src/src/pysolovideo/tracking/monitor.py).

The Python module is shallowly embedded: the Monitor object becomes a
Lean structure whose fields mirror the attributes set in Monitor.__init__,
exceptions become an error type threaded through Except, and the main
loop becomes a structurally recursive function over the finite schedule of
camera events together with the per-frame behaviour of the external
collaborators (tracking units, result writer).
-/

/-- Python exception values observed in monitor.py: PSVException is the
domain-specific error class, the remaining constructors model built-in
Python exceptions that the code can raise. -/
inductive PyErr where
  | psv (msg : String)
  | other (msg : String)
  | typeError (msg : String)
  | valueError (msg : String)
  | attributeError (msg : String)
deriving DecidableEq, Repr

/-- A tracked position, as the dict consumed by Monitor._draw_on_frame:
keys x, y, w, h, phi, is_inferred, has_interacted. -/
structure Position where
  x : Int
  y : Int
  w : Int
  h : Int
  phi : Int
  is_inferred : Bool
  has_interacted : Bool
deriving DecidableEq, Repr

/-- A region of interest, as consumed by monitor.py: an identity idx,
a polygon, and a label anchor offset. -/
structure ROI where
  idx : Nat
  polygon : List (Int × Int)
  offset : Int × Int
deriving DecidableEq, Repr

/-- TrackingUnit(tracker_class, roi, interactor): binding of one opaque
tracker class, one ROI and an optional opaque interactor. -/
structure TrackingUnit where
  tracker : Nat
  roi : ROI
  interactor : Option Nat
deriving DecidableEq, Repr

/-- The Python dict mapping ROI idx to the most recent Position
(Monitor._last_positions), embedded as an association list. -/
def PosMap := List (Nat × Position)
deriving DecidableEq, Repr

/-- Python dict assignment d[k] = v: replace the binding for k when
present, append it otherwise. -/
def PosMap.set : PosMap → Nat → Position → PosMap
  | [], k, v => [(k, v)]
  | (k', v') :: rest, k, v =>
      if k' = k then (k, v) :: rest else (k', v') :: PosMap.set rest k v

/-- Python dict lookup d[k], returning none in place of a KeyError. -/
def PosMap.get? : PosMap → Nat → Option Position
  | [], _ => none
  | (k', v') :: rest, k => if k' = k then some v' else PosMap.get? rest k

/-- One cv2 drawing primitive invoked by Monitor._draw_on_frame. -/
inductive DrawOp where
  | putText (label : String) (anchor : Int × Int)
  | drawContours (polygon : List (Int × Int)) (colour : Nat × Nat × Nat)
  | ellipse (x y w h phi : Int) (colour : Nat × Nat × Nat)
deriving DecidableEq, Repr

/-- An image value: an opaque base image plus the drawing operations that
have been applied to it, in order. frame.copy() copies this value. -/
structure FrameObj where
  base : Nat
  ops : List DrawOp
deriving DecidableEq, Repr

/-- The contour colour chosen for a position (monitor.py lines 140-143):
green when has_interacted, magenta otherwise. -/
def roiColour (pos : Position) : Nat × Nat × Nat :=
  if pos.has_interacted then (0, 255, 0) else (255, 0, 255)

/-- The ellipse colour chosen for a position (monitor.py lines 146-149):
blue when is_inferred, yellow otherwise. -/
def posColour (pos : Position) : Nat × Nat × Nat :=
  if pos.is_inferred then (255, 0, 0) else (0, 255, 255)

/-- The drawing operations one iteration of the loop in
Monitor._draw_on_frame (lines 133-153) performs for one tracking unit:
the idx label is always drawn; then the position dict is looked up and a
KeyError (none) continues to the next unit, so the contour and the
ellipse are drawn only when a position is known for the idx. -/
def unitOps (positions : PosMap) (track_u : TrackingUnit) : List DrawOp :=
  DrawOp.putText (toString track_u.roi.idx) track_u.roi.offset ::
    match positions.get? track_u.roi.idx with
    | none => []
    | some pos =>
        [DrawOp.drawContours track_u.roi.polygon (roiColour pos),
         DrawOp.ellipse pos.x pos.y pos.w pos.h pos.phi (posColour pos)]

/-- All drawing operations Monitor._draw_on_frame applies to the copied
frame, accumulated over the tracking units in list order. -/
def drawOnFrameOps (unit_trackers : List TrackingUnit) (positions : PosMap) :
    List DrawOp :=
  unit_trackers.flatMap (unitOps positions)

/-- Monitor._draw_on_frame as a value-level function: copy the frame and
apply the drawing operations determined by the unit trackers and the
last positions. -/
def drawOnFrame (unit_trackers : List TrackingUnit) (positions : PosMap)
    (frame : FrameObj) : FrameObj :=
  { frame with ops := frame.ops ++ drawOnFrameOps unit_trackers positions }

/-- The Monitor object: one field per attribute assigned in
Monitor.__init__ (monitor.py lines 62-94). The camera is kept outside the
structure, as the schedule of events fed to run. -/
structure Monitor where
  _result_file : Option String
  _exception : Option PyErr
  _draw_results : Bool
  draw_every_n : Nat
  _max_duration : Option Int
  _video_out : Option String
  _frame_buffer : Option FrameObj
  _force_stop : Bool
  _last_positions : PosMap
  _last_time_stamp : Int
  _is_running : Bool
  _unit_trackers : List TrackingUnit
deriving DecidableEq, Repr

/-- Monitor.__init__ (lines 41-94): line 73 multiplies max_duration by
1000 unconditionally, so a None max_duration raises a TypeError; then,
after the camera restart, the unit trackers are built, one per ROI,
zipped positionally with the interactors when those are supplied, and a
ValueError is raised when the two lists have different lengths. -/
def monitorInit (tracker_class : Nat) (rois : List ROI)
    (interactors : Option (List Nat)) (result_file : Option String)
    (draw_results : Bool) (draw_every_n : Nat) (video_out : Option String)
    (max_duration : Option Int) : Except PyErr Monitor :=
  match max_duration with
  | none => .error (.typeError "unsupported operand for NoneType and int")
  | some d =>
      let base : List TrackingUnit → Monitor := fun units =>
        { _result_file := result_file
          _exception := none
          _draw_results := draw_results
          draw_every_n := draw_every_n
          _max_duration := some (d * 1000)
          _video_out := video_out
          _frame_buffer := none
          _force_stop := false
          _last_positions := []
          _last_time_stamp := 0
          _is_running := false
          _unit_trackers := units }
      match interactors with
      | none =>
          .ok (base (rois.map fun r => ⟨tracker_class, r, none⟩))
      | some inters =>
          if inters.length = rois.length then
            .ok (base ((rois.zip inters).map fun ri =>
              ⟨tracker_class, ri.1, some ri.2⟩))
          else
            .error (.valueError "You should have one interactor per ROI")

/-- Property Monitor.last_positions (lines 97-101): re-raise a stored
exception, else return the internal dict. -/
def Monitor.last_positions (m : Monitor) : Except PyErr PosMap :=
  match m._exception with
  | some e => .error e
  | none => .ok m._last_positions

/-- Property Monitor.last_time_stamp (lines 103-109): re-raise a stored
exception, else return the last time stamp divided by 1e3. -/
def Monitor.last_time_stamp (m : Monitor) : Except PyErr ℚ :=
  match m._exception with
  | some e => .error e
  | none => .ok ((m._last_time_stamp : ℚ) / 1000)

/-- Property Monitor.last_drawn_frame (lines 112-116): re-raise a stored
exception, else call _draw_on_frame on the frame buffer; when the buffer
is still None (no frame recorded yet), frame.copy() on None raises an
AttributeError. -/
def Monitor.last_drawn_frame (m : Monitor) : Except PyErr FrameObj :=
  match m._exception with
  | some e => .error e
  | none =>
      match m._frame_buffer with
      | none => .error (.attributeError "NoneType object has no attribute copy")
      | some frame => .ok (drawOnFrame m._unit_trackers m._last_positions frame)

/-- Property Monitor.result_files (lines 118-122): re-raise a stored
exception, else return the singleton list of the result file. -/
def Monitor.result_files (m : Monitor) : Except PyErr (List (Option String)) :=
  match m._exception with
  | some e => .error e
  | none => .ok [m._result_file]

/-- Monitor.stop (lines 124-127): re-raise a stored exception, else set
the force-stop flag. -/
def Monitor.stop (m : Monitor) : Except PyErr Monitor :=
  match m._exception with
  | some e => .error e
  | none => .ok { m with _force_stop := true }

instance {ε α : Type _} [DecidableEq ε] [DecidableEq α] :
    DecidableEq (Except ε α) := fun x y =>
  match x, y with
  | .ok a, .ok b =>
      if h : a = b then isTrue (by rw [h]) else isFalse (by simp [h])
  | .error a, .error b =>
      if h : a = b then isTrue (by rw [h]) else isFalse (by simp [h])
  | .ok _, .error _ => isFalse (by simp)
  | .error _, .ok _ => isFalse (by simp)

/-- The behaviour of the external collaborators for one tracking unit on
one frame: the result of calling track_u(t, frame) (an exception, or an
optional opaque data row), the value of
track_u.get_last_position(absolute=True), and the result of
result_writer.write. -/
structure UnitResult where
  callResult : Except PyErr (Option Nat)
  abs_pos : Option Position
  writeResult : Except PyErr Unit
deriving DecidableEq, Repr

/-- The position update of lines 193-196: store the absolute position
under the ROI idx when it is not None, leave the dict alone otherwise. -/
def applyAbs (positions : PosMap) (idx : Nat) : Option Position → PosMap
  | some p => positions.set idx p
  | none => positions

/-- Lines 188-198 for a single tracking unit: call the unit (an exception
propagates); a None data row skips the unit; otherwise the absolute
position, when not None, is stored under the unit's ROI idx, and then the
result writer writes the row (an exception propagates, after the position
update has already happened). The error case carries the positions dict
as mutated so far, since the Python dict is updated in place. -/
def trackStep (has_writer : Bool) (positions : PosMap) (track_u : TrackingUnit)
    (r : UnitResult) : Except (PyErr × PosMap) PosMap :=
  match r.callResult with
  | .error e => .error (e, positions)
  | .ok none => .ok positions
  | .ok (some _) =>
      if has_writer then
        match r.writeResult with
        | .error e => .error (e, applyAbs positions track_u.roi.idx r.abs_pos)
        | .ok _ => .ok (applyAbs positions track_u.roi.idx r.abs_pos)
      else .ok (applyAbs positions track_u.roi.idx r.abs_pos)

/-- The inner for loop of Monitor.run (lines 184-198): fan out over the
tracking units in list order, threading the positions dict. -/
def procUnits (has_writer : Bool) (positions : PosMap) :
    List (TrackingUnit × UnitResult) → Except (PyErr × PosMap) PosMap
  | [] => .ok positions
  | ur :: rest =>
      match trackStep has_writer positions ur.1 ur.2 with
      | .error ep => .error ep
      | .ok p' => procUnits has_writer p' rest

/-- One iteration of the camera generator together with the collaborator
behaviour for that frame: the acquisition result (the camera may raise),
one UnitResult per tracking unit, and the result of
result_writer.flush(). -/
structure FrameInput where
  acquire : Except PyErr (Int × FrameObj)
  unitResults : List UnitResult
  flushResult : Except PyErr Unit
deriving DecidableEq, Repr

def exceptOk {α : Type} : Except PyErr α → Bool
  | .ok _ => true
  | .error _ => false

/-- The unit's collaborators do not raise on this frame. -/
def UnitResult.clean (r : UnitResult) : Bool :=
  exceptOk r.callResult && exceptOk r.writeResult

/-- No collaborator raises on this frame. -/
def FrameInput.clean (inp : FrameInput) : Bool :=
  exceptOk inp.acquire && inp.unitResults.all UnitResult.clean &&
    exceptOk inp.flushResult

/-- What the loop did with one acquired frame: the frame index i from
enumerate, the value of _is_running observed at the top of the iteration,
and whether the iteration reached the tracking fan-out (as opposed to
breaking at the stop/timeout checks). -/
structure FrameRecord where
  idx : Nat
  runningAtTop : Bool
  tracked : Bool
deriving DecidableEq, Repr

/-- Outcome of one iteration of the main for loop: halt ends the loop
(break, exhaustion of the acquisition, or a raised exception), next
continues with the following frame. -/
inductive StepOut where
  | halt (m : Monitor) (vw : Bool) (recs : List FrameRecord)
  | next (m : Monitor) (vw : Bool) (rec : FrameRecord)
deriving DecidableEq, Repr

/-- The timeout test of line 174:
self._max_duration is not None and t > self._max_duration. -/
def timeoutHit (md : Option Int) (t : Int) : Bool :=
  match md with
  | some d => decide (t > d)
  | none => false

/-- One iteration of the for loop of Monitor.run (lines 169-210), with
stopAfter modelling an external stop() request arriving while frame i is
being processed (the flag is only read at the top of the loop, so the
request takes effect at the end of iteration i). A camera exception at
acquisition is raised by the for statement itself, before the stop and
timeout checks. -/
def stepFrame (stopAfter : Option Nat) (i : Nat) (m : Monitor) (vw : Bool)
    (inp : FrameInput) : StepOut :=
  match inp.acquire with
  | .error e => .halt { m with _exception := some e } vw []
  | .ok (t, frame) =>
      if m._force_stop then .halt m vw [⟨i, m._is_running, false⟩]
      else if timeoutHit m._max_duration t then
        .halt m vw [⟨i, m._is_running, false⟩]
      else
        match procUnits m._result_file.isSome m._last_positions
            (m._unit_trackers.zip inp.unitResults) with
        | .error ep =>
            .halt
              { m with
                _last_time_stamp := t
                _frame_buffer := some frame
                _exception := some ep.1
                _last_positions := ep.2 }
              (vw || m._video_out.isSome) [⟨i, m._is_running, true⟩]
        | .ok p' =>
            match (if m._result_file.isSome then inp.flushResult
                   else Except.ok ()) with
            | .error e =>
                .halt
                  { m with
                    _last_time_stamp := t
                    _frame_buffer := some frame
                    _exception := some e
                    _last_positions := p' }
                  (vw || m._video_out.isSome) [⟨i, m._is_running, true⟩]
            | .ok _ =>
                .next
                  { m with
                    _last_time_stamp := t
                    _frame_buffer := some frame
                    _last_positions := p'
                    _force_stop := (if stopAfter = some i then true
                                    else m._force_stop) }
                  (vw || m._video_out.isSome) ⟨i, m._is_running, true⟩

/-- The main for loop of Monitor.run, iterated over the finite schedule
of camera events. Returns the monitor state when the loop ends, whether a
video writer was opened, and the per-iteration records. -/
def runLoop (stopAfter : Option Nat) :
    Monitor → Bool → Nat → List FrameInput → Monitor × Bool × List FrameRecord
  | m, vw, _, [] => (m, vw, [])
  | m, vw, i, inp :: rest =>
      match stepFrame stopAfter i m vw inp with
      | .halt m' vw' recs => (m', vw', recs)
      | .next m' vw' rec =>
          ((runLoop stopAfter m' vw' (i + 1) rest).1,
           (runLoop stopAfter m' vw' (i + 1) rest).2.1,
           rec :: (runLoop stopAfter m' vw' (i + 1) rest).2.2)

/-- The observable outcome of Monitor.run: the final monitor state, and
whether a video writer was lazily opened (line 181-182) and released in
the finally block (lines 233-234). -/
structure RunResult where
  monitor : Monitor
  vwOpened : Bool
  vwReleased : Bool
  records : List FrameRecord
deriving DecidableEq, Repr

/-- Monitor.run (lines 158-236): set _is_running, run the loop, and in
the finally block clear _is_running and release the video writer exactly
when one was opened. -/
def Monitor.run (m : Monitor) (stopAfter : Option Nat)
    (inputs : List FrameInput) : RunResult :=
  { monitor :=
      { (runLoop stopAfter { m with _is_running := true } false 0 inputs).1
        with _is_running := false }
    vwOpened :=
      (runLoop stopAfter { m with _is_running := true } false 0 inputs).2.1
    vwReleased :=
      (runLoop stopAfter { m with _is_running := true } false 0 inputs).2.1
    records :=
      (runLoop stopAfter { m with _is_running := true } false 0 inputs).2.2 }

/-! Reference-semantics view of the frame objects, used to state what
Monitor._draw_on_frame does to the frame object passed to it: Python
ndarrays are heap objects, frame.copy() allocates a fresh one, and the
cv2 drawing calls mutate the object they are given in place. -/

/-- A heap of frame objects: addresses mapped to image values. -/
def FrameHeap := List (Nat × FrameObj)
deriving DecidableEq, Repr

def FrameHeap.get? : FrameHeap → Nat → Option FrameObj
  | [], _ => none
  | (a, f) :: rest, addr => if a = addr then some f else FrameHeap.get? rest addr

/-- The largest address in use. -/
def FrameHeap.maxAddr : FrameHeap → Nat
  | [] => 0
  | (a, _) :: rest => max a (FrameHeap.maxAddr rest)

/-- An address not in use, for the allocation done by frame.copy(). -/
def FrameHeap.freshAddr (h : FrameHeap) : Nat := h.maxAddr + 1

/-- Monitor._draw_on_frame (lines 129-156) over the frame heap: look up
the frame object (none models passing a dangling reference), allocate a
fresh copy, and apply the drawing operations determined by the unit
trackers and the positions to the copy only. The result is the updated
heap and the address of the annotated copy. -/
def draw_on_frame (unit_trackers : List TrackingUnit) (positions : PosMap)
    (h : FrameHeap) (frameAddr : Nat) : Option (FrameHeap × Nat) :=
  match h.get? frameAddr with
  | none => none
  | some f =>
      let a := h.freshAddr
      some ((a, drawOnFrame unit_trackers positions f) :: h, a)

/-! Reference-semantics view of the positions dict, used to state what
the property Monitor.last_positions hands back to the caller: line 101
is return self._last_positions, which returns the dict object itself. -/

/-- A heap of dict objects: addresses mapped to position mappings. -/
def DictHeap := List (Nat × PosMap)
deriving DecidableEq, Repr

def DictHeap.get? : DictHeap → Nat → Option PosMap
  | [], _ => none
  | (a, d) :: rest, addr => if a = addr then some d else DictHeap.get? rest addr

/-- In-place mutation d[k] = v of the dict object at the given address. -/
def dictSet : DictHeap → Nat → Nat → Position → DictHeap
  | [], _, _, _ => []
  | (a, d) :: rest, addr, k, v =>
      (if a = addr then (a, d.set k v) else (a, d)) :: dictSet rest addr k v

/-- The by-reference fields of the Monitor relevant to the aliasing
behaviour of the accessor: the address of the _last_positions dict and
the stored exception. -/
structure MonitorRef where
  _last_positions : Nat
  _exception : Option PyErr
deriving DecidableEq, Repr

/-- Property Monitor.last_positions (lines 97-101) under reference
semantics: re-raise a stored exception, else return the internal dict
object itself (its address), with no copying. -/
def lastPositionsRef (m : MonitorRef) : Except PyErr Nat :=
  match m._exception with
  | some e => .error e
  | none => .ok m._last_positions

/-- True of the drawContours operations only. -/
def DrawOp.isContours : DrawOp → Bool
  | .drawContours _ _ => true
  | _ => false

/-- The result of construction is an exception. -/
def isErr {α : Type} : Except PyErr α → Bool
  | .error _ => true
  | .ok _ => false

/-- The unit trackers of a successfully constructed monitor. -/
def unitsOf : Except PyErr Monitor → Option (List TrackingUnit)
  | .ok m => some m._unit_trackers
  | .error _ => none

/-! Concrete sample data used in witnesses and counterexamples. -/

def exPos : Position := ⟨10, 20, 5, 6, 0, false, false⟩

def exPosB : Position := ⟨1, 2, 3, 4, 5, true, true⟩

def exROI : ROI := ⟨7, [(0, 0), (10, 0), (10, 10)], (1, 2)⟩

def exROI1 : ROI := ⟨1, [(0, 0), (2, 0), (2, 2)], (0, 0)⟩

def exROI2 : ROI := ⟨2, [(5, 5), (6, 5), (6, 6)], (5, 5)⟩

def exUnitNoPos : TrackingUnit := ⟨0, exROI, none⟩

def exMonitor : Monitor :=
  { _result_file := none
    _exception := none
    _draw_results := false
    draw_every_n := 1
    _max_duration := some 5000
    _video_out := none
    _frame_buffer := none
    _force_stop := false
    _last_positions := []
    _last_time_stamp := 0
    _is_running := false
    _unit_trackers := [⟨0, exROI1, none⟩, ⟨0, exROI2, none⟩] }

def exMRef : MonitorRef := ⟨0, none⟩

def exDictHeap : DictHeap := [(0, [])]

def exFrame : FrameObj := ⟨3, []⟩

def exFrameHeap : FrameHeap := [(0, exFrame)]

def exUnitA : TrackingUnit := ⟨0, exROI1, none⟩

def exUnitB : TrackingUnit := ⟨0, exROI2, none⟩

def exResA : UnitResult := ⟨.ok (some 0), some exPos, .ok ()⟩

def exResB : UnitResult := ⟨.ok none, none, .ok ()⟩

def exErr : PyErr := .psv "boom"

def exBadInput : FrameInput :=
  ⟨.ok (100, exFrame),
   [⟨.error exErr, none, .ok ()⟩, ⟨.ok none, none, .ok ()⟩], .ok ()⟩

def exGoodInput : FrameInput :=
  ⟨.ok (50, exFrame),
   [⟨.ok none, none, .ok ()⟩, ⟨.ok none, none, .ok ()⟩], .ok ()⟩

def exRec : FrameRecord := ⟨0, true, true⟩

def exRecStop : FrameRecord := ⟨1, true, false⟩

theorem PosMap.get_set_self (m : PosMap) (k : Nat) (v : Position) :
    (m.set k v).get? k = some v := by
  induction m with
  | nil => simp [PosMap.set, PosMap.get?]
  | cons hd tl ih =>
      by_cases h : hd.1 = k
      · simp [PosMap.set, PosMap.get?, h]
      · simp [PosMap.set, PosMap.get?, h, ih]

theorem PosMap.get_set_other (m : PosMap) (k k' : Nat) (v : Position)
    (h : k' ≠ k) : (m.set k v).get? k' = m.get? k' := by
  induction m with
  | nil => simp [PosMap.set, PosMap.get?, Ne.symm h]
  | cons hd tl ih =>
      by_cases hk : hd.1 = k
      · subst hk
        simp [PosMap.set, PosMap.get?, Ne.symm h, h]
      · by_cases hk' : hd.1 = k'
        · simp [PosMap.set, PosMap.get?, hk, hk', h]
        · simp [PosMap.set, PosMap.get?, hk, hk', h, ih]

/-- C3: constructing with max_duration = None raises: line 73 evaluates
max_duration * 1000 before the None guard of line 174 can ever matter,
and None * 1000 is a TypeError. The spec calls max_duration optional and
promises no timeout when absent, and the loop's own line 174 checks
against None, so the code contradicts its intended contract. -/
theorem max_duration_none_raises (tc : Nat) (rois : List ROI)
    (inters : Option (List Nat)) (rf : Option String) (dr : Bool) (den : Nat)
    (vo : Option String) :
    monitorInit tc rois inters rf dr den vo none =
      .error (.typeError "unsupported operand for NoneType and int") := rfl

/-- C10: on a monitor with no stored exception and no frame recorded yet
(_frame_buffer still None from __init__ line 77), last_drawn_frame calls
_draw_on_frame(None), whose first statement frame.copy() raises an
AttributeError instead of returning a frame. -/
theorem last_drawn_frame_none_buffer (m : Monitor)
    (hexc : m._exception = none) (hbuf : m._frame_buffer = none) :
    m.last_drawn_frame =
      .error (.attributeError "NoneType object has no attribute copy") := by
  simp [Monitor.last_drawn_frame, hexc, hbuf]

theorem last_drawn_frame_none_buffer_witness :
    exMonitor._exception = none ∧ exMonitor._frame_buffer = none ∧
    Monitor.last_drawn_frame exMonitor =
      .error (.attributeError "NoneType object has no attribute copy") :=
  ⟨rfl, rfl, last_drawn_frame_none_buffer exMonitor rfl rfl⟩

/-- C5 counterexample: for a tracking unit whose ROI idx 7 has no entry
in the positions dict, _draw_on_frame emits only the putText label: the
KeyError at line 136 is hit before the drawContours call of line 151, so
no polygon outline is drawn, contrary to the claim. -/
theorem no_outline_without_position_cex :
    drawOnFrameOps [exUnitNoPos] [] = [DrawOp.putText "7" (1, 2)] ∧
    (drawOnFrameOps [exUnitNoPos] []).all (fun op => !op.isContours) = true := by
  decide

/-- C5 amended: for every ROI with no known position, the renderer draws
only that ROI's identity label; the polygon outline (and the ellipse) are
not drawn for it, because the position lookup precedes both drawing
calls. Absence of a position is not an error: the unit is skipped and
rendering continues. -/
theorem label_only_without_position (positions : PosMap)
    (track_u : TrackingUnit)
    (h : positions.get? track_u.roi.idx = none) :
    unitOps positions track_u =
      [DrawOp.putText (toString track_u.roi.idx) track_u.roi.offset] := by
  simp [unitOps, h]

theorem label_only_without_position_witness :
    PosMap.get? [] exUnitNoPos.roi.idx = none ∧
    unitOps [] exUnitNoPos = [DrawOp.putText "7" (1, 2)] := by
  refine ⟨rfl, ?_⟩
  rw [label_only_without_position [] exUnitNoPos rfl]
  decide

/-- C4: supplying an interactor list whose length differs from the ROI
list makes construction fail with an exception (so no tracking unit
object ever exists); with a length-matched list every ROI gets exactly
one unit with the interactors paired positionally, and with no
interactor list every ROI gets exactly one unit with none bound. -/
theorem interactor_count_checked :
    (∀ (tc : Nat) (rois : List ROI) (inters : List Nat) (rf : Option String)
        (dr : Bool) (den : Nat) (vo : Option String) (md : Option Int),
      inters.length ≠ rois.length →
        isErr (monitorInit tc rois (some inters) rf dr den vo md) = true) ∧
    (∀ (tc : Nat) (rois : List ROI) (inters : List Nat) (rf : Option String)
        (dr : Bool) (den : Nat) (vo : Option String) (d : Int),
      inters.length = rois.length →
        unitsOf (monitorInit tc rois (some inters) rf dr den vo (some d)) =
          some ((rois.zip inters).map fun ri => ⟨tc, ri.1, some ri.2⟩) ∧
        ((rois.zip inters).map fun ri : ROI × Nat =>
          (⟨tc, ri.1, some ri.2⟩ : TrackingUnit)).length = rois.length) ∧
    (∀ (tc : Nat) (rois : List ROI) (rf : Option String) (dr : Bool)
        (den : Nat) (vo : Option String) (d : Int),
      unitsOf (monitorInit tc rois none rf dr den vo (some d)) =
        some (rois.map fun r => ⟨tc, r, none⟩) ∧
      (rois.map fun r : ROI => (⟨tc, r, none⟩ : TrackingUnit)).length =
        rois.length) := by
  refine ⟨?_, ?_, ?_⟩
  · intro tc rois inters rf dr den vo md h
    cases md with
    | none => rfl
    | some d => simp [monitorInit, isErr, h]
  · intro tc rois inters rf dr den vo d h
    constructor
    · simp [monitorInit, unitsOf, h]
    · simp [List.length_zip, h]
  · intro tc rois rf dr den vo d
    constructor
    · simp [monitorInit, unitsOf]
    · simp

theorem interactor_count_checked_witness :
    ([1, 2] : List Nat).length ≠ ([exROI1] : List ROI).length ∧
    isErr (monitorInit 0 [exROI1] (some [1, 2]) none false 1 none (some 5)) =
      true ∧
    unitsOf (monitorInit 0 [exROI1] (some [3]) none false 1 none (some 5)) =
      some [⟨0, exROI1, some 3⟩] ∧
    unitsOf (monitorInit 0 [exROI1, exROI2] none none false 1 none (some 5)) =
      some [⟨0, exROI1, none⟩, ⟨0, exROI2, none⟩] := by
  refine ⟨by decide, ?_, ?_, ?_⟩
  · exact interactor_count_checked.1 0 [exROI1] [1, 2] none false 1 none
      (some 5) (by decide)
  · rw [(interactor_count_checked.2.1 0 [exROI1] [3] none false 1 none 5
      rfl).1]
    decide
  · rw [(interactor_count_checked.2.2 0 [exROI1, exROI2] none false 1 none
      5).1]
    decide

/-- The dict object mutated in place at an address is seen mutated when
read back through the same address. -/
theorem dictSet_get_self (h : DictHeap) (addr k : Nat) (v : Position) :
    (dictSet h addr k v).get? addr =
      (h.get? addr).map fun d => d.set k v := by
  induction h with
  | nil => rfl
  | cons hd tl ih =>
      obtain ⟨a, d⟩ := hd
      by_cases ha : a = addr
      · subst ha
        simp only [dictSet]
        simp [DictHeap.get?]
      · simp only [dictSet]
        rw [if_neg ha]
        simp [DictHeap.get?, ha, ih]

/-- C9 counterexample: last_positions (line 101) returns the internal
dict object itself, so a caller mutation through the returned value
changes what the orchestrator's internal table holds: with the internal
dict at address 0 initially empty, after the caller writes key 5 the
internal read differs from its original value. -/
theorem last_positions_not_copied_cex :
    lastPositionsRef exMRef = .ok 0 ∧
    (dictSet exDictHeap 0 5 exPos).get? exMRef._last_positions ≠
      exDictHeap.get? exMRef._last_positions := by
  decide

/-- C9 amended: last_positions returns the internal mapping object
itself, not a copy: absent a stored exception the accessor hands back
the very reference held in _last_positions, and an in-place mutation
through that reference is visible in the orchestrator's internal
last-known-state table. -/
theorem last_positions_returns_alias (m : MonitorRef)
    (hexc : m._exception = none) :
    lastPositionsRef m = .ok m._last_positions ∧
    ∀ (h : DictHeap) (k : Nat) (v : Position),
      (dictSet h m._last_positions k v).get? m._last_positions =
        (h.get? m._last_positions).map fun d => d.set k v := by
  refine ⟨by simp [lastPositionsRef, hexc], ?_⟩
  intro h k v
  exact dictSet_get_self h m._last_positions k v

theorem last_positions_returns_alias_witness :
    exMRef._exception = none ∧
    lastPositionsRef exMRef = .ok exMRef._last_positions ∧
    (dictSet exDictHeap exMRef._last_positions 5 exPos).get?
        exMRef._last_positions =
      (exDictHeap.get? exMRef._last_positions).map fun d => d.set 5 exPos :=
  ⟨rfl, (last_positions_returns_alias exMRef rfl).1,
    (last_positions_returns_alias exMRef rfl).2 exDictHeap 5 exPos⟩

/-- Every address with a binding is at most the maximum address. -/
theorem FrameHeap.get_le_maxAddr (h : FrameHeap) (addr : Nat) (f : FrameObj)
    (hg : h.get? addr = some f) : addr ≤ h.maxAddr := by
  induction h with
  | nil => simp [FrameHeap.get?] at hg
  | cons hd tl ih =>
      by_cases ha : hd.1 = addr
      · subst ha
        exact le_max_left _ _
      · simp only [FrameHeap.get?, ha, if_false] at hg
        exact le_trans (ih hg) (le_max_right _ _)

/-- C7: _draw_on_frame is pure up to allocation: it copies the frame
(line 131) to a fresh object, applies to that copy exactly the drawing
operations determined by the frame value, the unit trackers and the
positions, never writes to the input frame object, and two invocations
on the same (frame value, units, positions) produce the same annotated
frame value, whatever heap each runs in. -/
theorem draw_on_frame_pure (unit_trackers : List TrackingUnit)
    (positions : PosMap) (h : FrameHeap) (frameAddr : Nat) (f : FrameObj)
    (hget : h.get? frameAddr = some f) :
    draw_on_frame unit_trackers positions h frameAddr =
      some ((h.freshAddr, drawOnFrame unit_trackers positions f) :: h,
        h.freshAddr) ∧
    FrameHeap.get?
        ((h.freshAddr, drawOnFrame unit_trackers positions f) :: h)
        frameAddr = some f ∧
    FrameHeap.get?
        ((h.freshAddr, drawOnFrame unit_trackers positions f) :: h)
        h.freshAddr = some (drawOnFrame unit_trackers positions f) ∧
    ∀ (h2 : FrameHeap) (addr2 : Nat), h2.get? addr2 = some f →
      ∃ p2, draw_on_frame unit_trackers positions h2 addr2 = some p2 ∧
        FrameHeap.get? p2.1 p2.2 =
          some (drawOnFrame unit_trackers positions f) := by
  have hne : h.freshAddr ≠ frameAddr := by
    have := FrameHeap.get_le_maxAddr h frameAddr f hget
    simp only [FrameHeap.freshAddr]
    omega
  refine ⟨by simp [draw_on_frame, hget], ?_, ?_, ?_⟩
  · simp [FrameHeap.get?, hne, hget]
  · simp [FrameHeap.get?]
  · intro h2 addr2 hget2
    refine ⟨((h2.freshAddr, drawOnFrame unit_trackers positions f) :: h2,
      h2.freshAddr), by simp [draw_on_frame, hget2], ?_⟩
    simp [FrameHeap.get?]

/-- A position update for one idx does not touch the entry of any other
key. -/
theorem applyAbs_get_other (positions : PosMap) (idx : Nat)
    (abs : Option Position) (k : Nat) (hk : idx ≠ k) :
    (applyAbs positions idx abs).get? k = positions.get? k := by
  cases abs with
  | none => rfl
  | some p => exact PosMap.get_set_other positions idx k p (Ne.symm hk)

/-- A successful trackStep leaves every key other than the unit's ROI idx
unchanged. -/
theorem trackStep_ok_other (hw : Bool) (p : PosMap) (u : TrackingUnit)
    (r : UnitResult) (q : PosMap) (k : Nat)
    (h : trackStep hw p u r = .ok q) (hk : u.roi.idx ≠ k) :
    q.get? k = p.get? k := by
  unfold trackStep at h
  split at h
  · exact absurd h (by simp)
  · cases h
    rfl
  · split at h
    · split at h
      · exact absurd h (by simp)
      · cases h
        exact applyAbs_get_other p u.roi.idx r.abs_pos k hk
    · cases h
      exact applyAbs_get_other p u.roi.idx r.abs_pos k hk

/-- A successful fan-out leaves every key not owned by any processed unit
unchanged. -/
theorem procUnits_ok_other (hw : Bool) (l : List (TrackingUnit × UnitResult))
    (k : Nat) : ∀ (p q : PosMap), procUnits hw p l = .ok q →
    (∀ ur ∈ l, ur.1.roi.idx ≠ k) → q.get? k = p.get? k := by
  induction l with
  | nil =>
      intro p q h _
      cases h
      rfl
  | cons ur rest ih =>
      intro p q h hk
      rw [procUnits] at h
      split at h
      · exact absurd h (by simp)
      · rename_i p1 hstep
        have h1 := trackStep_ok_other hw p ur.1 ur.2 p1 k hstep
          (hk ur (List.mem_cons_self _ _))
        rw [ih p1 q h fun x hx => hk x (List.mem_cons_of_mem _ hx), h1]

/-- C2: per-frame fan-out (lines 184-198): a unit that yields a data row
and a non-None absolute position leaves last_positions at its ROI idx
equal to that position at the end of the frame; a unit whose call yields
None leaves the entry for its ROI idx exactly as it was at the start of
the frame. ROI identities are assumed unique across units, as the spec's
data-model invariant states. -/
theorem procUnits_position_update (hw : Bool) :
    ∀ (l : List (TrackingUnit × UnitResult)) (positions p' : PosMap),
    (l.map fun ur => ur.1.roi.idx).Nodup →
    procUnits hw positions l = .ok p' →
    ∀ u r, (u, r) ∈ l →
      (∀ row pos, r.callResult = .ok (some row) → r.abs_pos = some pos →
        p'.get? u.roi.idx = some pos) ∧
      (r.callResult = .ok none →
        p'.get? u.roi.idx = positions.get? u.roi.idx) := by
  intro l
  induction l with
  | nil =>
      intro positions p' _ _ u r hmem
      exact absurd hmem (List.not_mem_nil _)
  | cons ur0 rest ih =>
      obtain ⟨u0, r0⟩ := ur0
      intro positions p' hnd hok u r hmem
      rw [List.map_cons, List.nodup_cons] at hnd
      obtain ⟨hhead, htail⟩ := hnd
      rw [procUnits] at hok
      split at hok
      · exact absurd hok (by simp)
      · rename_i q hstep
        replace hstep : trackStep hw positions u0 r0 = .ok q := hstep
        rcases List.mem_cons.mp hmem with heq | hmemr
        · injection heq with hu hr
          subst hu
          subst hr
          have hrest : ∀ x ∈ rest, x.1.roi.idx ≠ u.roi.idx := by
            intro x hx hcontra
            exact hhead (hcontra ▸ List.mem_map_of_mem _ hx)
          have hq := procUnits_ok_other hw rest u.roi.idx q p' hok hrest
          constructor
          · intro row pos hcall habs
            rw [hq]
            simp only [trackStep, hcall, habs] at hstep
            split at hstep
            · split at hstep
              · exact absurd hstep (by simp)
              · cases hstep
                exact PosMap.get_set_self positions u.roi.idx pos
            · cases hstep
              exact PosMap.get_set_self positions u.roi.idx pos
          · intro hcall
            rw [hq]
            simp only [trackStep, hcall, Except.ok.injEq] at hstep
            subst hstep
            rfl
        · have hu0 : u0.roi.idx ≠ u.roi.idx := by
            intro hcontra
            exact hhead (hcontra ▸
              List.mem_map_of_mem _ hmemr)
          have hstep' := trackStep_ok_other hw positions u0 r0 q
            u.roi.idx hstep hu0
          have hih := ih q p' htail hok u r hmemr
          exact ⟨hih.1, fun hcall => (hih.2 hcall).trans hstep'⟩

theorem procUnits_position_update_witness :
    procUnits false [(2, exPosB)] [(exUnitA, exResA), (exUnitB, exResB)] =
      .ok [(2, exPosB), (1, exPos)] ∧
    PosMap.get? [(2, exPosB), (1, exPos)] exUnitA.roi.idx = some exPos ∧
    PosMap.get? [(2, exPosB), (1, exPos)] exUnitB.roi.idx =
      PosMap.get? [(2, exPosB)] exUnitB.roi.idx := by
  have h := procUnits_position_update false [(exUnitA, exResA),
    (exUnitB, exResB)] [(2, exPosB)] [(2, exPosB), (1, exPos)] (by decide)
    (by decide)
  exact ⟨by decide, (h exUnitA exResA (by decide)).1 0 exPos rfl rfl,
    (h exUnitB exResB (by decide)).2 rfl⟩

theorem draw_on_frame_pure_witness :
    FrameHeap.get? exFrameHeap 0 = some exFrame ∧
    draw_on_frame [exUnitNoPos] [] exFrameHeap 0 =
      some ((FrameHeap.freshAddr exFrameHeap,
        drawOnFrame [exUnitNoPos] [] exFrame) :: exFrameHeap,
        FrameHeap.freshAddr exFrameHeap) ∧
    FrameHeap.get? ((FrameHeap.freshAddr exFrameHeap,
      drawOnFrame [exUnitNoPos] [] exFrame) :: exFrameHeap) 0 =
      some exFrame :=
  ⟨rfl, (draw_on_frame_pure [exUnitNoPos] [] exFrameHeap 0 exFrame rfl).1,
    (draw_on_frame_pure [exUnitNoPos] [] exFrameHeap 0 exFrame rfl).2.1⟩

/-- When no collaborator raises for this unit, its trackStep succeeds. -/
theorem trackStep_clean (hw : Bool) (p : PosMap) (u : TrackingUnit)
    (r : UnitResult) (hc : r.clean = true) :
    ∃ q, trackStep hw p u r = .ok q := by
  unfold UnitResult.clean at hc
  rw [Bool.and_eq_true] at hc
  obtain ⟨hcall, hwrite⟩ := hc
  cases hc1 : r.callResult with
  | error e =>
      rw [hc1] at hcall
      simp [exceptOk] at hcall
  | ok row =>
      cases row with
      | none => exact ⟨p, by simp [trackStep, hc1]⟩
      | some rn =>
          cases hw2 : r.writeResult with
          | error e =>
              rw [hw2] at hwrite
              simp [exceptOk] at hwrite
          | ok uu =>
              exact ⟨applyAbs p u.roi.idx r.abs_pos,
                by cases hw <;> simp [trackStep, hc1, hw2]⟩

/-- When no collaborator raises on this frame, the whole fan-out
succeeds. -/
theorem procUnits_clean (hw : Bool) :
    ∀ (l : List (TrackingUnit × UnitResult)) (p : PosMap),
    (∀ ur ∈ l, ur.2.clean = true) →
    ∃ p', procUnits hw p l = .ok p' := by
  intro l
  induction l with
  | nil => exact fun p _ => ⟨p, rfl⟩
  | cons ur rest ih =>
      intro p hc
      obtain ⟨q, hq⟩ := trackStep_clean hw p ur.1 ur.2
        (hc ur (List.mem_cons_self _ _))
      obtain ⟨p', hp'⟩ := ih q fun x hx => hc x (List.mem_cons_of_mem _ hx)
      refine ⟨p', ?_⟩
      simp only [procUnits, hq]
      exact hp'

/-- Facts about a loop iteration that ends the loop: _is_running is
untouched, every record carries the index and the _is_running observed at
the top, and when the iteration broke on the force-stop flag no tracking
work was recorded. -/
theorem stepFrame_halt_facts (s : Option Nat) (i : Nat) (m : Monitor)
    (vw : Bool) (inp : FrameInput) (m' : Monitor) (vw' : Bool)
    (recs : List FrameRecord)
    (h : stepFrame s i m vw inp = .halt m' vw' recs) :
    m'._is_running = m._is_running ∧
    (∀ r ∈ recs, r.runningAtTop = m._is_running ∧ r.idx = i) ∧
    (m._force_stop = true → ∀ r ∈ recs, r.tracked = false) := by
  unfold stepFrame at h
  split at h
  · cases h
    refine ⟨rfl, by simp, by simp⟩
  · split at h
    · cases h
      refine ⟨rfl, by simp, by simp⟩
    · split at h
      · cases h
        refine ⟨rfl, by simp, by simp⟩
      · split at h
        · cases h
          refine ⟨rfl, by simp, ?_⟩
          intro hf
          simp_all
        · split at h
          · cases h
            refine ⟨rfl, by simp, ?_⟩
            intro hf
            simp_all
          · exact absurd h (by simp)

/-- Facts about a loop iteration that continues: the stored exception and
_is_running are untouched, the record carries the index and the
_is_running observed at the top, tracking work happened, a stop request
arriving during this frame leaves the force-stop flag set, and the
iteration only continues when the flag was down at its top. -/
theorem stepFrame_next_facts (s : Option Nat) (i : Nat) (m : Monitor)
    (vw : Bool) (inp : FrameInput) (m' : Monitor) (vw' : Bool)
    (rec : FrameRecord)
    (h : stepFrame s i m vw inp = .next m' vw' rec) :
    m'._exception = m._exception ∧
    m'._is_running = m._is_running ∧
    rec.runningAtTop = m._is_running ∧
    rec.idx = i ∧ rec.tracked = true ∧
    (s = some i → m'._force_stop = true) ∧
    m._force_stop = false := by
  unfold stepFrame at h
  split at h
  · exact absurd h (by simp)
  · split at h
    · exact absurd h (by simp)
    · split at h
      · exact absurd h (by simp)
      · split at h
        · exact absurd h (by simp)
        · split at h
          · exact absurd h (by simp)
          · cases h
            refine ⟨by split <;> rfl, by split <;> rfl, rfl, rfl, rfl,
              ?_, by simp_all⟩
            intro hs
            rw [if_pos hs]

/-- When no collaborator raises on a halting iteration, the stored
exception is untouched: the halt came from a break, not from an error. -/
theorem stepFrame_clean_halt_exc (s : Option Nat) (i : Nat) (m : Monitor)
    (vw : Bool) (inp : FrameInput) (m' : Monitor) (vw' : Bool)
    (recs : List FrameRecord) (hclean : inp.clean = true)
    (h : stepFrame s i m vw inp = .halt m' vw' recs) :
    m'._exception = m._exception := by
  unfold FrameInput.clean at hclean
  rw [Bool.and_eq_true, Bool.and_eq_true] at hclean
  obtain ⟨⟨hacq, hall⟩, hflush⟩ := hclean
  unfold stepFrame at h
  split at h
  · rename_i e heq
    rw [heq] at hacq
    simp [exceptOk] at hacq
  · split at h
    · cases h
      rfl
    · split at h
      · cases h
        rfl
      · split at h
        · rename_i ep heq
          have hcl : ∀ ur ∈ m._unit_trackers.zip inp.unitResults,
              ur.2.clean = true := by
            intro ur hur
            have hmem := (List.of_mem_zip hur).2
            rw [List.all_eq_true] at hall
            exact hall ur.2 hmem
          obtain ⟨p', hp'⟩ := procUnits_clean m._result_file.isSome
            (m._unit_trackers.zip inp.unitResults) m._last_positions hcl
          rw [heq] at hp'
          exact absurd hp' (by simp)
        · split at h
          · rename_i e heq
            split at heq
            · rw [heq] at hflush
              simp [exceptOk] at hflush
            · exact absurd heq (by simp)
          · exact absurd h (by simp)

/-- The loop never changes _is_running, and every record observes the
_is_running value the loop started with. -/
theorem runLoop_running (s : Option Nat) :
    ∀ (inputs : List FrameInput) (m : Monitor) (vw : Bool) (i : Nat),
    (runLoop s m vw i inputs).1._is_running = m._is_running ∧
    ∀ r ∈ (runLoop s m vw i inputs).2.2, r.runningAtTop = m._is_running := by
  intro inputs
  induction inputs with
  | nil =>
      intro m vw i
      exact ⟨rfl, by simp [runLoop]⟩
  | cons inp rest ih =>
      intro m vw i
      cases hstep : stepFrame s i m vw inp with
      | halt m' vw' recs =>
          have hf := stepFrame_halt_facts s i m vw inp m' vw' recs hstep
          constructor
          · simp only [runLoop, hstep]
            exact hf.1
          · simp only [runLoop, hstep]
            intro r hr
            exact (hf.2.1 r hr).1
      | next m' vw' rec =>
          have hf := stepFrame_next_facts s i m vw inp m' vw' rec hstep
          have hih := ih m' vw' (i + 1)
          constructor
          · simp only [runLoop, hstep]
            rw [hih.1, hf.2.1]
          · simp only [runLoop, hstep]
            intro r hr
            rcases List.mem_cons.mp hr with hr0 | hr1
            · rw [hr0]
              exact hf.2.2.1
            · rw [hih.2 r hr1, hf.2.1]

/-- Once the loop has ended with a stored exception, feeding it more
camera events changes nothing: the remaining schedule is never
consumed. -/
theorem runLoop_append_of_error (s : Option Nat) (e : PyErr) :
    ∀ (inputs : List FrameInput) (m : Monitor) (vw : Bool) (i : Nat),
    m._exception = none →
    (runLoop s m vw i inputs).1._exception = some e →
    ∀ extra, runLoop s m vw i (inputs ++ extra) = runLoop s m vw i inputs := by
  intro inputs
  induction inputs with
  | nil =>
      intro m vw i hm hres extra
      rw [runLoop] at hres
      rw [hm] at hres
      exact absurd hres (by simp)
  | cons inp rest ih =>
      intro m vw i hm hres extra
      cases hstep : stepFrame s i m vw inp with
      | halt m' vw' recs =>
          simp only [List.cons_append, runLoop, hstep]
      | next m' vw' rec =>
          have hf := stepFrame_next_facts s i m vw inp m' vw' rec hstep
          have hm' : m'._exception = none := hf.1.trans hm
          simp only [runLoop, hstep] at hres
          simp only [List.cons_append, runLoop, hstep, List.append_eq]
          rw [ih m' vw' (i + 1) hm' hres extra]

/-- When no collaborator raises anywhere in the schedule, the loop ends
with the stored exception it started with. -/
theorem runLoop_clean_exc (s : Option Nat) :
    ∀ (inputs : List FrameInput) (m : Monitor) (vw : Bool) (i : Nat),
    inputs.all FrameInput.clean = true →
    (runLoop s m vw i inputs).1._exception = m._exception := by
  intro inputs
  induction inputs with
  | nil =>
      intro m vw i _
      rfl
  | cons inp rest ih =>
      intro m vw i hall
      rw [List.all_cons, Bool.and_eq_true] at hall
      obtain ⟨hinp, hrest⟩ := hall
      cases hstep : stepFrame s i m vw inp with
      | halt m' vw' recs =>
          simp only [runLoop, hstep]
          exact stepFrame_clean_halt_exc s i m vw inp m' vw' recs hinp hstep
      | next m' vw' rec =>
          have hf := stepFrame_next_facts s i m vw inp m' vw' rec hstep
          simp only [runLoop, hstep]
          rw [ih m' vw' (i + 1) hrest, hf.1]

/-- With a stop request arriving during frame k, tracking work happens
only on frames up to index k, every acquired frame has index at most
k + 1, and an iteration at index k + 1 does no tracking work. -/
theorem runLoop_stop_invariant (k : Nat) :
    ∀ (inputs : List FrameInput) (m : Monitor) (vw : Bool) (i : Nat),
    i ≤ k + 1 → (i = k + 1 → m._force_stop = true) →
    ∀ r ∈ (runLoop (some k) m vw i inputs).2.2,
      (r.tracked = true → r.idx ≤ k) ∧ r.idx ≤ k + 1 ∧
      (r.idx = k + 1 → r.tracked = false) := by
  intro inputs
  induction inputs with
  | nil =>
      intro m vw i _ _ r hr
      simp [runLoop] at hr
  | cons inp rest ih =>
      intro m vw i hik hflag r hr
      cases hstep : stepFrame (some k) i m vw inp with
      | halt m' vw' recs =>
          have hf := stepFrame_halt_facts (some k) i m vw inp m' vw' recs hstep
          simp only [runLoop, hstep] at hr
          have hidx : r.idx = i := (hf.2.1 r hr).2
          by_cases hi : i = k + 1
          · have htr : r.tracked = false := hf.2.2 (hflag hi) r hr
            refine ⟨fun ht => ?_, by omega, fun _ => htr⟩
            rw [htr] at ht
            exact absurd ht (by simp)
          · refine ⟨fun _ => by omega, by omega, fun hcon => ?_⟩
            exact absurd hcon (by omega)
      | next m' vw' rec =>
          have hf := stepFrame_next_facts (some k) i m vw inp m' vw' rec hstep
          simp only [runLoop, hstep] at hr
          have hfs : m._force_stop = false := hf.2.2.2.2.2.2
          have hi : i ≠ k + 1 := by
            intro hcon
            rw [hflag hcon] at hfs
            exact absurd hfs (by simp)
          rcases List.mem_cons.mp hr with hr0 | hr1
          · have hidx : r.idx = i := by
              rw [hr0]
              exact hf.2.2.2.1
            refine ⟨fun _ => by omega, by omega, fun hcon => ?_⟩
            exact absurd hcon (by omega)
          · refine ih m' vw' (i + 1) (by omega) ?_ r hr1
            intro hi1
            have hik2 : some k = some i := by
              have : i = k := by omega
              rw [this]
            exact hf.2.2.2.2.2.1 hik2

/-- C8: the running flag is true exactly during the main loop: run sets
it at loop start (line 168), every loop iteration observes it true at its
top, and the finally block (line 224) clears it on every exit path —
source exhaustion, stop request, timeout and fatal error alike. -/
theorem running_flag_tracks_loop (m : Monitor) (s : Option Nat)
    (inputs : List FrameInput) :
    (m.run s inputs).monitor._is_running = false ∧
    ∀ r ∈ (m.run s inputs).records, r.runningAtTop = true := by
  constructor
  · rfl
  · intro r hr
    simp only [Monitor.run] at hr
    exact (runLoop_running s inputs { m with _is_running := true }
      false 0).2 r hr

theorem running_flag_tracks_loop_witness :
    exRec ∈ (Monitor.run exMonitor none [exGoodInput]).records ∧
    (Monitor.run exMonitor none [exGoodInput]).monitor._is_running = false ∧
    exRec.runningAtTop = true := by
  refine ⟨by decide, (running_flag_tracks_loop exMonitor none
    [exGoodInput]).1, (running_flag_tracks_loop exMonitor none
    [exGoodInput]).2 exRec (by decide)⟩

/-- C1: once the loop has stored a fatal exception, the run is over and
the error is terminal: _is_running is false, every read accessor
(last_positions, last_time_stamp, last_drawn_frame, result_files) and
stop() re-raise that same stored exception instead of returning a value,
a video encoder opened during the run is released by the finally block,
and feeding the loop further camera events changes nothing — the loop
terminated when the exception was raised. -/
theorem run_error_is_terminal (m : Monitor) (s : Option Nat)
    (inputs : List FrameInput) (e : PyErr) (hm : m._exception = none)
    (herr : (m.run s inputs).monitor._exception = some e) :
    (m.run s inputs).monitor._is_running = false ∧
    (m.run s inputs).monitor.last_positions = .error e ∧
    (m.run s inputs).monitor.last_time_stamp = .error e ∧
    (m.run s inputs).monitor.last_drawn_frame = .error e ∧
    (m.run s inputs).monitor.result_files = .error e ∧
    (m.run s inputs).monitor.stop = .error e ∧
    ((m.run s inputs).vwOpened → (m.run s inputs).vwReleased) ∧
    ∀ extra, m.run s (inputs ++ extra) = m.run s inputs := by
  refine ⟨rfl, ?_, ?_, ?_, ?_, ?_, fun h => h, ?_⟩
  · simp [Monitor.last_positions, herr]
  · simp [Monitor.last_time_stamp, herr]
  · simp [Monitor.last_drawn_frame, herr]
  · simp [Monitor.result_files, herr]
  · simp [Monitor.stop, herr]
  · intro extra
    have hm' : ({ m with _is_running := true } : Monitor)._exception =
        none := hm
    have hres : (runLoop s { m with _is_running := true } false 0
        inputs).1._exception = some e := herr
    simp only [Monitor.run]
    rw [runLoop_append_of_error s e inputs { m with _is_running := true }
      false 0 hm' hres extra]

theorem run_error_is_terminal_witness :
    exMonitor._exception = none ∧
    (Monitor.run exMonitor none [exBadInput]).monitor._exception =
      some exErr ∧
    (Monitor.run exMonitor none [exBadInput]).monitor._is_running = false ∧
    Monitor.last_positions (Monitor.run exMonitor none
      [exBadInput]).monitor = .error exErr ∧
    Monitor.last_drawn_frame (Monitor.run exMonitor none
      [exBadInput]).monitor = .error exErr ∧
    Monitor.stop (Monitor.run exMonitor none [exBadInput]).monitor =
      .error exErr ∧
    Monitor.run exMonitor none ([exBadInput] ++ [exGoodInput]) =
      Monitor.run exMonitor none [exBadInput] := by
  have h := run_error_is_terminal exMonitor none [exBadInput] exErr rfl
    (by decide)
  exact ⟨rfl, by decide, h.1, h.2.1, h.2.2.2.1, h.2.2.2.2.2.1,
    h.2.2.2.2.2.2.2 [exGoodInput]⟩

/-- C6: a stop request arriving while frame k is processed is observed at
the top of the next iteration: tracking work happens only on frames with
index at most k, the one frame acquired after it (index k + 1) gets no
tracking work before the loop breaks, no frame beyond index k + 1 is ever
acquired, and the break is a normal termination — with no raising
collaborator the run ends with no stored exception. -/
theorem stop_bounds_loop (m : Monitor) (inputs : List FrameInput)
    (k : Nat) :
    (∀ r ∈ (m.run (some k) inputs).records,
      (r.tracked = true → r.idx ≤ k) ∧ r.idx ≤ k + 1 ∧
      (r.idx = k + 1 → r.tracked = false)) ∧
    (m._exception = none → inputs.all FrameInput.clean = true →
      (m.run (some k) inputs).monitor._exception = none) := by
  constructor
  · intro r hr
    simp only [Monitor.run] at hr
    exact runLoop_stop_invariant k inputs { m with _is_running := true }
      false 0 (by omega) (fun h => absurd h (by omega)) r hr
  · intro hm hall
    have hcl := runLoop_clean_exc (some k) inputs
      { m with _is_running := true } false 0 hall
    have : (m.run (some k) inputs).monitor._exception =
        (runLoop (some k) { m with _is_running := true } false 0
          inputs).1._exception := rfl
    rw [this, hcl]
    exact hm

theorem stop_bounds_loop_witness :
    exRecStop ∈ (Monitor.run exMonitor (some 0)
      [exGoodInput, exGoodInput, exGoodInput]).records ∧
    exRecStop.idx ≤ 0 + 1 ∧
    (exRecStop.idx = 0 + 1 → exRecStop.tracked = false) ∧
    exMonitor._exception = none ∧
    ([exGoodInput, exGoodInput, exGoodInput].all FrameInput.clean = true) ∧
    (Monitor.run exMonitor (some 0)
      [exGoodInput, exGoodInput, exGoodInput]).monitor._exception =
      none := by
  have h := stop_bounds_loop exMonitor
    [exGoodInput, exGoodInput, exGoodInput] 0
  have hmem : exRecStop ∈ (Monitor.run exMonitor (some 0)
      [exGoodInput, exGoodInput, exGoodInput]).records := by decide
  exact ⟨hmem, (h.1 exRecStop hmem).2.1, (h.1 exRecStop hmem).2.2, rfl,
    by decide, h.2 rfl (by decide)⟩
